import Mathlib

/-!
Verification development for the flight-deals bot (`src/main.py`).

The Python source is shallowly embedded: dictionaries of per-user settings
become a `Settings` structure (effective settings) and a `SettingsOv`
structure (the per-user override dictionary, one optional field per key),
Python dicts keyed by chat-id strings become insertion-ordered association
lists, and the side-effecting Telegram handlers become pure functions from
an application state and an inbound update to a new state plus a list of
outbound replies.
-/

namespace FlightDeals

/-! ## Threshold model (`max_price_for_duration`, src/main.py lines 174-183) -/

/-- Integer ceiling division: `(a + b - 1) / b` where `/` is Lean's
Euclidean division on `ℤ`.  For `b > 0` this equals the mathematical
ceiling of the true quotient `a / b`, i.e. Python's
`math.ceil(a / b)`; `ceilDiv_eq_ceil` below certifies this. -/
def ceilDiv (a b : ℤ) : ℤ := (a + b - 1) / b

/-- For a positive divisor, `ceilDiv` is exactly the ceiling of the exact
rational quotient, which is what `math.ceil((duration - base) / step)`
computes in the source. -/
theorem ceilDiv_eq_ceil (a b : ℤ) (hb : 0 < b) :
    ceilDiv a b = ⌈(a : ℚ) / (b : ℚ)⌉ := by
  have hbQ : (0 : ℚ) < (b : ℚ) := by exact_mod_cast hb
  symm
  rw [Int.ceil_eq_iff]
  have h1 := Int.ediv_add_emod (a + b - 1) b
  have h2 := Int.emod_nonneg (a + b - 1) (ne_of_gt hb)
  have h3 := Int.emod_lt_of_pos (a + b - 1) hb
  constructor
  · rw [lt_div_iff hbQ]
    have h : (ceilDiv a b - 1) * b < a := by unfold ceilDiv; nlinarith [h1, h2]
    exact_mod_cast h
  · rw [div_le_iff hbQ]
    have h : a ≤ ceilDiv a b * b := by unfold ceilDiv; nlinarith [h1, h3]
    exact_mod_cast h

/-- Effective (merged) user settings: the shape of
`DEFAULT_USER_SETTINGS` in the source.  Numeric fields are integers,
as produced by the `int`-typed Telegram commands. -/
structure Settings where
  origin : String
  days_ahead : ℤ
  base_price_eur : ℤ
  base_duration_minutes : ℤ
  price_increment_eur : ℤ
  increment_minutes : ℤ
  currency : String
  market : String
  limit : ℤ
  direct_only : Bool
  deriving DecidableEq

/-- `DEFAULT_USER_SETTINGS` from the source (src/main.py lines 28-39). -/
def DEFAULT_USER_SETTINGS : Settings :=
  { origin := "BUD"
    days_ahead := 3
    base_price_eur := 20
    base_duration_minutes := 90
    price_increment_eur := 10
    increment_minutes := 30
    currency := "eur"
    market := "hu"
    limit := 100
    direct_only := false }

/-- `max_price_for_duration(duration_minutes, s)` (src/main.py lines
174-183): `base_price` for durations up to the base duration, otherwise
`base_price + ceil((d - base) / step) * increment`. -/
def max_price_for_duration (duration_minutes : ℤ) (s : Settings) : ℤ :=
  if duration_minutes ≤ s.base_duration_minutes then s.base_price_eur
  else s.base_price_eur +
    ceilDiv (duration_minutes - s.base_duration_minutes) s.increment_minutes *
      s.price_increment_eur

/-! ## Insertion-ordered string-keyed maps (Python dicts) -/

/-- Lookup in an insertion-ordered association list (Python `d.get(k)` /
`d[k]`). -/
def mapFind? {α : Type} : List (String × α) → String → Option α
  | [], _ => none
  | (k', v) :: rest, k => if k' = k then some v else mapFind? rest k

/-- Python `d[k] = v`: overwrite in place if the key exists, else append. -/
def mapInsert {α : Type} : List (String × α) → String → α → List (String × α)
  | [], k, v => [(k, v)]
  | (k', v') :: rest, k, v =>
    if k' = k then (k', v) :: rest else (k', v') :: mapInsert rest k v

/-- Python `d.pop(k)`: remove the key.  (Keys are unique in every map the
program builds, so removing all occurrences is the same operation.) -/
def mapErase {α : Type} (m : List (String × α)) (k : String) : List (String × α) :=
  m.filter (fun p => p.1 != k)

@[simp] theorem mapFind?_insert_self {α : Type} (m : List (String × α)) (k : String) (v : α) :
    mapFind? (mapInsert m k v) k = some v := by
  induction m with
  | nil => simp [mapInsert, mapFind?]
  | cons p rest ih =>
    obtain ⟨k', v'⟩ := p
    by_cases h : k' = k <;> simp [mapInsert, mapFind?, h, ih]

@[simp] theorem mapFind?_insert_ne {α : Type} (m : List (String × α)) {k k' : String} (v : α)
    (h : k' ≠ k) : mapFind? (mapInsert m k v) k' = mapFind? m k' := by
  induction m with
  | nil => simp [mapInsert, mapFind?, h.symm]
  | cons p rest ih =>
    obtain ⟨k₀, v₀⟩ := p
    by_cases h₀ : k₀ = k
    · subst h₀
      simp [mapInsert, mapFind?, h.symm]
    · simp only [mapInsert, if_neg h₀, mapFind?, ih]

@[simp] theorem mapFind?_erase_self {α : Type} (m : List (String × α)) (k : String) :
    mapFind? (mapErase m k) k = none := by
  induction m with
  | nil => rfl
  | cons p rest ih =>
    obtain ⟨k', v'⟩ := p
    by_cases h : k' = k
    · simpa [mapErase, List.filter_cons, h] using ih
    · simpa [mapErase, List.filter_cons, bne_iff_ne, h, mapFind?] using ih

@[simp] theorem mapFind?_erase_ne {α : Type} (m : List (String × α)) {k k' : String}
    (h : k' ≠ k) : mapFind? (mapErase m k) k' = mapFind? m k' := by
  induction m with
  | nil => rfl
  | cons p rest ih =>
    obtain ⟨k₀, v₀⟩ := p
    by_cases h₀ : k₀ = k
    · subst h₀
      have h₁ : k₀ ≠ k' := fun hh => h hh.symm
      simpa [mapErase, List.filter_cons, mapFind?, h₁] using ih
    · by_cases h₁ : k₀ = k'
      · simp [mapErase, List.filter_cons, bne_iff_ne, h₀, mapFind?, h₁, h]
      · simpa [mapErase, List.filter_cons, bne_iff_ne, h₀, mapFind?, h₁] using ih

/-- Membership in `users` is monotone under `mapInsert` (needed because the
registry only ever grows). -/
theorem isSome_mapFind?_insert {α : Type} (m : List (String × α)) (k id : String) (v : α)
    (h : (mapFind? m id).isSome) : (mapFind? (mapInsert m k v) id).isSome := by
  by_cases hk : id = k
  · subst hk; simp
  · rwa [mapFind?_insert_ne m v hk]

/-! ## Per-user records and application state -/

/-- A user's stored `settings` dictionary: only the keys that were
explicitly set are present (`none` = key absent, default applies). -/
structure SettingsOv where
  origin : Option String := none
  days_ahead : Option ℤ := none
  base_price_eur : Option ℤ := none
  base_duration_minutes : Option ℤ := none
  price_increment_eur : Option ℤ := none
  increment_minutes : Option ℤ := none
  currency : Option String := none
  market : Option String := none
  limit : Option ℤ := none
  direct_only : Option Bool := none
  deriving DecidableEq

/-- `dict(DEFAULT_USER_SETTINGS)` updated with the user's overrides
(`s.update(user.get("settings", {}))`). -/
def mergeSettings (ov : SettingsOv) : Settings :=
  { origin := ov.origin.getD DEFAULT_USER_SETTINGS.origin
    days_ahead := ov.days_ahead.getD DEFAULT_USER_SETTINGS.days_ahead
    base_price_eur := ov.base_price_eur.getD DEFAULT_USER_SETTINGS.base_price_eur
    base_duration_minutes :=
      ov.base_duration_minutes.getD DEFAULT_USER_SETTINGS.base_duration_minutes
    price_increment_eur :=
      ov.price_increment_eur.getD DEFAULT_USER_SETTINGS.price_increment_eur
    increment_minutes := ov.increment_minutes.getD DEFAULT_USER_SETTINGS.increment_minutes
    currency := ov.currency.getD DEFAULT_USER_SETTINGS.currency
    market := ov.market.getD DEFAULT_USER_SETTINGS.market
    limit := ov.limit.getD DEFAULT_USER_SETTINGS.limit
    direct_only := ov.direct_only.getD DEFAULT_USER_SETTINGS.direct_only }

/-- One entry of `state["users"]`. -/
structure UserRec where
  name : String
  settings : SettingsOv
  sent_deals : List String
  deriving DecidableEq

/-- One entry of `state["pending"]`. -/
structure PendingRec where
  name : String
  username : String
  deriving DecidableEq

/-- The whole persisted application state (src/main.py lines 76-85). -/
structure AppState where
  users : List (String × UserRec)
  pending : List (String × PendingRec)
  last_update_id : ℤ
  deriving DecidableEq

/-- `empty_state()` (src/main.py line 84). -/
def empty_state : AppState := { users := [], pending := [], last_update_id := 0 }

/-- `user_settings(state, chat_id)` (src/main.py lines 186-191): defaults
overlaid with the user's explicitly-set fields. -/
def user_settings (state : AppState) (chat_id : String) : Settings :=
  mergeSettings (((mapFind? state.users chat_id).map UserRec.settings).getD {})

/-! ## String helpers (char-list models of the Python `str` methods used) -/

/-- Python `str.strip()` on both ends. -/
def trimChars (cs : List Char) : List Char :=
  ((cs.dropWhile Char.isWhitespace).reverse.dropWhile Char.isWhitespace).reverse

/-- Python `str.upper()` (ASCII model). -/
def upperStr (s : String) : String := ⟨s.data.map Char.toUpper⟩

/-- Python `str.lower()` (ASCII model). -/
def lowerStr (s : String) : String := ⟨s.data.map Char.toLower⟩

/-- Python slice `s[:n]` (by code points). -/
def takeStr (s : String) (n : ℕ) : String := ⟨s.data.take n⟩

/-- Python `s.replace(a, b)` for a single-character pattern. -/
def replaceChar (s : String) (a b : Char) : String :=
  ⟨s.data.map (fun c => if c = a then b else c)⟩

/-- Python `sep.join(xs)`. -/
def joinSep (sep : String) : List String → String
  | [] => ""
  | [x] => x
  | x :: xs => x ++ sep ++ joinSep sep xs

/-! ## Python `int(...)` (the `int`-typed command arguments) -/

/-- Digit run accepted by Python `int(...)`: decimal digits, with single
underscores allowed between digits (`int("1_0") == 10`).  The caller has
already checked that the first character is a digit, so a leading
underscore never reaches this function. -/
def pyIntDigits : List Char → ℕ → Option ℕ
  | [], acc => some acc
  | ['_'], _ => none
  | '_' :: c :: cs, acc =>
    if c.isDigit then pyIntDigits cs (10 * acc + (c.toNat - 48)) else none
  | c :: cs, acc =>
    if c.isDigit then pyIntDigits cs (10 * acc + (c.toNat - 48)) else none

/-- Python `int(arg)` (ASCII model): optional surrounding whitespace,
optional sign, then a digit run; anything else raises `ValueError`,
modelled as `none`. -/
def pyInt (s : String) : Option ℤ :=
  let body : List Char → Option ℤ := fun cs =>
    match cs with
    | [] => none
    | c :: _ => if c.isDigit then (pyIntDigits cs 0).map (fun n => (n : ℤ)) else none
  match trimChars s.data with
  | '+' :: rest => body rest
  | '-' :: rest => (body rest).map (fun z => -z)
  | cs => body cs

/-! ## Decimal rendering (Python `str(...)` of an integer) -/

/-- Big-endian decimal digits of `n` (empty for `0`), with a fuel argument
for structural termination; `natDecimalChars` instantiates the fuel to `n`
itself, which is always sufficient. -/
def natDigitsAux : ℕ → ℕ → List Char
  | _, 0 => []
  | 0, _ => []
  | fuel + 1, n + 1 =>
    natDigitsAux fuel ((n + 1) / 10) ++ [Nat.digitChar ((n + 1) % 10)]

def natDecimalChars (n : ℕ) : List Char := natDigitsAux n n

/-- Decimal rendering of a natural number, as Python `str` produces it. -/
def natDecimal (n : ℕ) : String := if n = 0 then "0" else ⟨natDecimalChars n⟩

/-- Decimal rendering of an integer: `str(i)` in Python, used for the
price inside the fingerprint key and the numeric fields of the
formatted message. -/
def intDecimal (i : ℤ) : String :=
  if i < 0 then "-" ++ natDecimal i.natAbs else natDecimal i.toNat

/-! ## Tickets, deals, the deal filter and the fingerprint -/

/-- One raw ticket record from the price API; every field may be absent
(`t.get(...)` in the source). -/
structure Ticket where
  origin : Option String := none
  destination : Option String := none
  departure_at : Option String := none
  price : Option ℤ := none
  duration_to : Option ℤ := none
  duration : Option ℤ := none
  airline : Option String := none
  flight_number : Option String := none
  transfers : Option ℤ := none
  link : Option String := none
  deriving DecidableEq

/-- A normalized deal record as built by `filter_deals`. -/
structure Deal where
  origin : String
  destination : String
  departure_at : String
  price : ℤ
  currency : String
  duration_min : ℤ
  threshold : ℤ
  airline : String
  flight_number : String
  transfers : ℤ
  link : String
  deriving DecidableEq

/-- `t.get("duration_to") or t.get("duration", 0)` (src/main.py line 437):
Python `or` falls through both on a missing key and on the falsy value
`0`. -/
def ticketDuration (t : Ticket) : ℤ :=
  match t.duration_to with
  | some v => if v = 0 then t.duration.getD 0 else v
  | none => t.duration.getD 0

/-- The normalized attribute set appended for a passing ticket
(src/main.py lines 443-455). -/
def normalizeDeal (s : Settings) (t : Ticket) : Deal :=
  { origin := t.origin.getD s.origin
    destination := t.destination.getD "???"
    departure_at := t.departure_at.getD ""
    price := t.price.getD 0
    currency := upperStr s.currency
    duration_min := ticketDuration t
    threshold := max_price_for_duration (ticketDuration t) s
    airline := t.airline.getD ""
    flight_number := t.flight_number.getD ""
    transfers := t.transfers.getD 0
    link := t.link.getD "" }

/-- `filter_deals(tickets, s)` (src/main.py lines 434-456), mirroring the
source loop: skip non-positive durations, keep tickets whose price is at
most the duration threshold, normalizing each kept record. -/
def filter_deals : List Ticket → Settings → List Deal
  | [], _ => []
  | t :: rest, s =>
    if ticketDuration t ≤ 0 then filter_deals rest s
    else
      if t.price.getD 0 ≤ max_price_for_duration (ticketDuration t) s then
        normalizeDeal s t :: filter_deals rest s
      else filter_deals rest s

/-- `deal_hash(deal)` (src/main.py lines 169-171).  The source computes
`hashlib.md5(key.encode()).hexdigest()[:12]` of the key string
`f"{origin}-{destination}-{departure_at}-{price}"`.  Modelled from the
spec: `hashlib.md5` is a Python standard-library collaborator whose code
is not part of this repository; the spec requires only a deterministic
digest of those four fields with no collisions on the relevant corpus, so
the digest step is modelled as the identity and the fingerprint is the
key string itself (whose construction is from the source). -/
def deal_hash (d : Deal) : String :=
  d.origin ++ "-" ++ d.destination ++ "-" ++ d.departure_at ++ "-" ++ intDecimal d.price

/-! ## Notification formatting (src/main.py lines 459-472 and 503-512) -/

/-- Python `f"{m:02d}"` for the minutes field. -/
def pad2 (i : ℤ) : String :=
  if 0 ≤ i ∧ i < 10 then "0" ++ intDecimal i else intDecimal i

/-- `format_deal(d)` (src/main.py lines 459-472). -/
def format_deal (d : Deal) : String :=
  let dep := if d.departure_at = "" then "?"
             else replaceChar (takeStr d.departure_at 16) 'T' ' '
  let stops := if d.transfers = 0 then "direct" else intDecimal d.transfers ++ " stop(s)"
  let link := if d.link = "" then "" else "\nhttps://www.aviasales.com" ++ d.link
  "✈️ " ++ d.origin ++ " → " ++ d.destination ++ "\n" ++
    "   " ++ dep ++ " | " ++ intDecimal (d.duration_min / 60) ++ "h" ++
    pad2 (d.duration_min % 60) ++ "m | " ++ stops ++ "\n" ++
    "   💰 " ++ intDecimal d.price ++ " " ++ d.currency ++ " (limit " ++
    intDecimal d.threshold ++ " " ++ d.currency ++ ")\n" ++
    "   " ++ d.airline ++ " " ++ d.flight_number ++ link

/-- The concatenation `header + body` assembled in `search_for_user`
(src/main.py lines 506-508): count header plus one block per deal joined
by blank lines. -/
def rawMessage (all_new : List Deal) : String :=
  "🔥 " ++ natDecimal all_new.length ++ " new cheap flight(s)!\n\n" ++
    joinSep "\n\n" (all_new.map format_deal)

/-- The single outbound message of `search_for_user` (src/main.py lines
506-510): the 4096-character ceiling is enforced by truncating to 4090
characters and appending a `"\n…"` continuation marker. -/
def renderMessage (all_new : List Deal) : String :=
  if (rawMessage all_new).length > 4096 then
    (⟨(rawMessage all_new).data.take 4090⟩ : String) ++ "\n…"
  else rawMessage all_new

/-! ## Per-user search pass (src/main.py lines 480-517) -/

/-- The deals of one day's ticket list whose fingerprint is not in the
already-sent set (the inner loop of `search_for_user`). -/
def newDealsForDay (sent_hashes : List String) (s : Settings) (tickets : List Ticket) :
    List Deal :=
  (filter_deals tickets s).filter (fun d => !(sent_hashes.contains (deal_hash d)))

/-- All new deals accumulated over the day loop.  `fetch_flights` is an
external collaborator, so the raw ticket list of each of the
`days_ahead` days is a parameter. -/
def allNewDeals (sent_hashes : List String) (s : Settings) (days : List (List Ticket)) :
    List Deal :=
  days.flatMap (fun tickets => newDealsForDay sent_hashes s tickets)

/-- Python `list.sort(key=lambda d: d["price"])`: the stable ascending
sort by price (a stable sorted permutation is unique, so any stable sort
models it). -/
def sortByPrice (l : List Deal) : List Deal :=
  List.insertionSort (fun a b => a.price ≤ b.price) l

/-- `sent_list[-500:]` (src/main.py line 517): keep the most recent 500
entries. -/
def truncateLedger (l : List String) : List String := l.drop (l.length - 500)

/-- `user_data["sent_deals"] = ...` for a registered user: replace the
user's ledger, leaving name and settings as they were. -/
def withLedger (st : AppState) (chat_id : String) (u : UserRec) (l : List String) :
    AppState :=
  let u' : UserRec := { u with sent_deals := l }
  { st with users := mapInsert st.users chat_id u' }

/-- `search_for_user(chat_id, state, cfg)` (src/main.py lines 480-517),
with the fetched per-day ticket lists passed in and the outbound send
treated as the transport collaborator.  The source evaluates
`state["users"][chat_id]` only for ids that are keys of `users` (the main
loop iterates over them), so the missing-key case is modelled as the
identity. -/
def search_for_user (chat_id : String) (state : AppState) (days : List (List Ticket)) :
    AppState :=
  match mapFind? state.users chat_id with
  | none => state
  | some user_data =>
    let s := user_settings state chat_id
    let all_new := allNewDeals user_data.sent_deals s days
    if all_new.isEmpty then state
    else
      let sorted := sortByPrice all_new
      withLedger state chat_id user_data
        (truncateLedger (user_data.sent_deals ++ sorted.map deal_hash))

/-! ## Telegram command machine (src/main.py lines 234-402) -/

/-- The argument type of a settings command (`str` or `int` in
`COMMAND_MAP`). -/
inductive SettingTy where
  | str
  | int
  deriving DecidableEq

/-- `COMMAND_MAP` (src/main.py lines 234-240): command → settings key and
argument type. -/
def COMMAND_MAP (cmd : String) : Option (String × SettingTy) :=
  if cmd = "/origin" then some ("origin", SettingTy.str)
  else if cmd = "/days" then some ("days_ahead", SettingTy.int)
  else if cmd = "/price" then some ("base_price_eur", SettingTy.int)
  else if cmd = "/duration" then some ("base_duration_minutes", SettingTy.int)
  else if cmd = "/increment" then some ("price_increment_eur", SettingTy.int)
  else none

/-- `settings[key] = val` for the single `str`-typed key. -/
def setSettingStr (ov : SettingsOv) (key : String) (v : String) : SettingsOv :=
  if key = "origin" then { ov with origin := some v } else ov

/-- `settings[key] = val` for the `int`-typed keys of `COMMAND_MAP`. -/
def setSettingInt (ov : SettingsOv) (key : String) (v : ℤ) : SettingsOv :=
  if key = "days_ahead" then { ov with days_ahead := some v }
  else if key = "base_price_eur" then { ov with base_price_eur := some v }
  else if key = "base_duration_minutes" then { ov with base_duration_minutes := some v }
  else if key = "price_increment_eur" then { ov with price_increment_eur := some v }
  else ov

/-- Reading back an `int`-typed override field by its `COMMAND_MAP` key
(used to state the one-field frame property of the settings commands). -/
def getSettingInt (ov : SettingsOv) (key : String) : Option ℤ :=
  if key = "days_ahead" then ov.days_ahead
  else if key = "base_price_eur" then ov.base_price_eur
  else if key = "base_duration_minutes" then ov.base_duration_minutes
  else if key = "price_increment_eur" then ov.price_increment_eur
  else none

/-- One outbound `send_tg` call, by call site; the dynamic parts of the
text are the payload (the fixed Russian template strings and the footer
appended by the transport are immaterial to the claims). -/
inductive Out where
  | helpMsg (withAdmin : Bool)
  | alreadyPending
  | requestSent
  | newRequest (name : String) (username : String) (chatId : String)
  | notAuthorized
  | settingsView (s : Settings) (sentCount : ℕ)
  | directStatus (enabled : Bool)
  | historyCleared
  | usage (cmd : String)
  | setOkStr (key : String) (v : String)
  | setOkInt (key : String) (v : ℤ)
  | badValue (arg : String)
  | approvedAdmin (name : String)
  | approvedUser
  | rejectedAdmin (name : String)
  | rejectedUser
  | notFound (arg : String)
  | usersView (users : List (String × UserRec)) (pending : List (String × PendingRec))
  | unknownCmd
  deriving DecidableEq

/-- The command dispatch of `process_telegram_commands` (src/main.py lines
280-399), after the per-update cursor advance and the text parse.  The
source guards the admin commands with `elif cmd == "/approve" and
is_admin:`; since a later `elif` can only fire for a *different* `cmd`,
that chain is equivalently nested as `if cmd = ... then if is_admin
then ... else unknown`. -/
def dispatchCommand (admin_id : String) (state : AppState) (chat_id : String)
    (cmd arg display_name username : String) : AppState × List (String × Out) :=
  let is_admin : Bool := chat_id == admin_id
  if cmd = "/start" then
    if (mapFind? state.users chat_id).isSome then
      (state, [(chat_id, Out.helpMsg is_admin)])
    else if (mapFind? state.pending chat_id).isSome then
      (state, [(chat_id, Out.alreadyPending)])
    else
      ({ state with pending := mapInsert state.pending chat_id ⟨display_name, username⟩ },
        [(chat_id, Out.requestSent), (admin_id, Out.newRequest display_name username chat_id)])
  else
    match mapFind? state.users chat_id with
    | none => (state, [(chat_id, Out.notAuthorized)])
    | some u =>
      if cmd = "/help" then (state, [(chat_id, Out.helpMsg is_admin)])
      else if cmd = "/settings" then
        (state, [(chat_id, Out.settingsView (user_settings state chat_id) u.sent_deals.length)])
      else if cmd = "/direct" then
        let current := u.settings.direct_only.getD DEFAULT_USER_SETTINGS.direct_only
        let u' : UserRec := { u with settings := { u.settings with direct_only := some (!current) } }
        ({ state with users := mapInsert state.users chat_id u' },
          [(chat_id, Out.directStatus (!current))])
      else if cmd = "/reset" then
        let u' : UserRec := { u with sent_deals := [] }
        ({ state with users := mapInsert state.users chat_id u' },
          [(chat_id, Out.historyCleared)])
      else
        match COMMAND_MAP cmd with
        | some (key, ty) =>
          if arg = "" then (state, [(chat_id, Out.usage cmd)])
          else
            match ty with
            | SettingTy.str =>
              let val := upperStr arg
              let u' : UserRec := { u with settings := setSettingStr u.settings key val }
              ({ state with users := mapInsert state.users chat_id u' },
                [(chat_id, Out.setOkStr key val)])
            | SettingTy.int =>
              match pyInt arg with
              | some v =>
                let u' : UserRec := { u with settings := setSettingInt u.settings key v }
                ({ state with users := mapInsert state.users chat_id u' },
                  [(chat_id, Out.setOkInt key v)])
              | none => (state, [(chat_id, Out.badValue arg)])
        | none =>
          if cmd = "/approve" then
            if is_admin then
              if arg = "" then (state, [(chat_id, Out.usage cmd)])
              else
                match mapFind? state.pending arg with
                | some info =>
                  ({ state with
                      pending := mapErase state.pending arg,
                      users := mapInsert state.users arg ⟨info.name, {}, []⟩ },
                    [(chat_id, Out.approvedAdmin info.name), (arg, Out.approvedUser)])
                | none => (state, [(chat_id, Out.notFound arg)])
            else (state, [(chat_id, Out.unknownCmd)])
          else if cmd = "/reject" then
            if is_admin then
              if arg = "" then (state, [(chat_id, Out.usage cmd)])
              else
                match mapFind? state.pending arg with
                | some info =>
                  ({ state with pending := mapErase state.pending arg },
                    [(chat_id, Out.rejectedAdmin info.name), (arg, Out.rejectedUser)])
                | none => (state, [(chat_id, Out.notFound arg)])
            else (state, [(chat_id, Out.unknownCmd)])
          else if cmd = "/users" then
            if is_admin then (state, [(chat_id, Out.usersView state.users state.pending)])
            else (state, [(chat_id, Out.unknownCmd)])
          else (state, [(chat_id, Out.unknownCmd)])

/-- One inbound Telegram update, reduced to the fields the source reads:
`update_id`, `str(msg["chat"]["id"])` (empty when missing),
the message text, and the sender's display name and handle (with the
source's `.get(..., default)` already applied). -/
structure Update where
  update_id : ℤ
  chat_id : String
  text : String
  first_name : String
  username : String
  deriving DecidableEq

/-- First whitespace-delimited token of the stripped text
(`text.split(maxsplit=1)[0]`). -/
def firstToken (cs : List Char) : List Char :=
  cs.takeWhile (fun c => !c.isWhitespace)

/-- Rest after the first token, stripped
(`parts[1].strip() if len(parts) > 1 else ""`). -/
def restAfterToken (cs : List Char) : List Char :=
  trimChars (cs.dropWhile (fun c => !c.isWhitespace))

/-- `parts[0].lower().split("@")[0]` (src/main.py line 273). -/
def cmdOf (t : List Char) : String :=
  ⟨((firstToken t).map Char.toLower).takeWhile (fun c => c != '@')⟩

/-- Per-update handling (src/main.py lines 262-399) after the cursor
advance: skip empty chat ids and texts not starting with `/`, parse the
command and argument, dispatch. -/
def handleMessage (admin_id : String) (state : AppState) (u : Update) :
    AppState × List (String × Out) :=
  if u.chat_id = "" then (state, [])
  else
    match trimChars u.text.data with
    | '/' :: t =>
      dispatchCommand admin_id state u.chat_id (cmdOf ('/' :: t)) ⟨restAfterToken ('/' :: t)⟩
        u.first_name u.username
    | _ => (state, [])

/-- One iteration of the update loop: `state["last_update_id"] =
upd["update_id"]` followed by the message handling. -/
def applyUpdate (admin_id : String) (state : AppState) (u : Update) :
    AppState × List (String × Out) :=
  handleMessage admin_id { state with last_update_id := u.update_id } u

/-- `process_telegram_commands` (src/main.py lines 243-402) over a drained
list of updates; the outbound sends are fire-and-forget transport calls,
so the fold keeps only the state. -/
def process_telegram_commands (admin_id : String) (state : AppState)
    (updates : List Update) : AppState :=
  updates.foldl (fun st u => (applyUpdate admin_id st u).1) state

/-- The startup admin-insertion step (src/main.py lines 534-537). -/
def ensureAdmin (admin_id : String) (state : AppState) : AppState :=
  if admin_id ≠ "" ∧ (mapFind? state.users admin_id).isNone then
    { state with users := mapInsert state.users admin_id ⟨"Admin", {}, []⟩ }
  else state

/-- One `main()` run's state-machine part, in program order: admin
insertion, then the drained inbound commands. -/
def runOnce (admin_id : String) (state : AppState) (updates : List Update) : AppState :=
  process_telegram_commands admin_id (ensureAdmin admin_id state) updates

/-- States reachable from the empty state by complete runs (admin
insertion followed by inbound-command processing, as `main()` orders
them), for a fixed configured admin id. -/
inductive Reachable (admin_id : String) : AppState → Prop where
  | empty : Reachable admin_id empty_state
  | run (updates : List Update) {st : AppState} (h : Reachable admin_id st) :
      Reachable admin_id (runOnce admin_id st updates)

/-! ## Claim C1 — threshold formula, monotonicity, concrete values -/

/-- Monotonicity of the threshold in the duration, for a positive step and
a non-negative increment. -/
theorem max_price_mono (s : Settings) (hstep : 0 < s.increment_minutes)
    (hinc : 0 ≤ s.price_increment_eur) {d₁ d₂ : ℤ} (h : d₁ ≤ d₂) :
    max_price_for_duration d₁ s ≤ max_price_for_duration d₂ s := by
  by_cases h₁ : d₁ ≤ s.base_duration_minutes
  · by_cases h₂ : d₂ ≤ s.base_duration_minutes
    · simp [max_price_for_duration, h₁, h₂]
    · have hpos : 0 ≤ ceilDiv (d₂ - s.base_duration_minutes) s.increment_minutes :=
        Int.ediv_nonneg (by omega) (by omega)
      have hmul := mul_nonneg hpos hinc
      simp only [max_price_for_duration, if_pos h₁, if_neg h₂]
      linarith
  · by_cases h₂ : d₂ ≤ s.base_duration_minutes
    · exact absurd (h.trans h₂) h₁
    · have hc : ceilDiv (d₁ - s.base_duration_minutes) s.increment_minutes ≤
          ceilDiv (d₂ - s.base_duration_minutes) s.increment_minutes := by
        unfold ceilDiv
        exact Int.ediv_le_ediv hstep (by omega)
      have hmul := mul_le_mul_of_nonneg_right hc hinc
      simp only [max_price_for_duration, if_neg h₁, if_neg h₂]
      linarith

/-- Default settings with a negative price increment — reachable state,
since `/increment -10` parses as a valid `int`. -/
def negIncrementSettings : Settings :=
  { DEFAULT_USER_SETTINGS with price_increment_eur := -10 }

/-- C1 (counterexample): the claim asserts the threshold is non-decreasing
in the duration for *every* settings map; with `price_increment_eur = -10`
and the remaining defaults the code yields `max_price(90) = 20` but
`max_price(91) = 10`, a strict decrease. -/
theorem C1_counterexample :
    max_price_for_duration 91 negIncrementSettings <
      max_price_for_duration 90 negIncrementSettings := by decide

/-- C1 (amended): for every settings map with a positive step (`step = 0`
raises `ZeroDivisionError` in the source), the threshold is `base_price`
up to the base duration and `base_price + ceil((d - base) / step) *
increment` beyond it; it is non-decreasing in the duration whenever the
increment is also non-negative; and with the default parameters
(base 90, step 30, increment 10, base price 20) the values at 91, 120 and
121 minutes are 30, 30 and 40. -/
theorem C1_amended (s : Settings) (d d₁ d₂ : ℤ) (hstep : 0 < s.increment_minutes) :
    (d ≤ s.base_duration_minutes → max_price_for_duration d s = s.base_price_eur) ∧
    (s.base_duration_minutes < d →
      max_price_for_duration d s =
        s.base_price_eur +
          ⌈((d - s.base_duration_minutes : ℤ) : ℚ) / (s.increment_minutes : ℚ)⌉ *
            s.price_increment_eur) ∧
    (0 ≤ s.price_increment_eur → d₁ ≤ d₂ →
      max_price_for_duration d₁ s ≤ max_price_for_duration d₂ s) ∧
    (max_price_for_duration 91 DEFAULT_USER_SETTINGS = 30 ∧
      max_price_for_duration 120 DEFAULT_USER_SETTINGS = 30 ∧
      max_price_for_duration 121 DEFAULT_USER_SETTINGS = 40) := by
  refine ⟨?_, ?_, ?_, by decide, by decide, by decide⟩
  · intro hd
    simp [max_price_for_duration, hd]
  · intro hd
    rw [max_price_for_duration, if_neg (by omega),
      ceilDiv_eq_ceil (d - s.base_duration_minutes) s.increment_minutes hstep]
  · intro hinc hle
    exact max_price_mono s hstep hinc hle

/-- C1 (witness): the amended theorem applied at the default settings. -/
theorem C1_witness :
    max_price_for_duration 80 DEFAULT_USER_SETTINGS = 20 ∧
    max_price_for_duration 91 DEFAULT_USER_SETTINGS ≤
      max_price_for_duration 121 DEFAULT_USER_SETTINGS :=
  ⟨(C1_amended DEFAULT_USER_SETTINGS 80 91 121 (by decide)).1 (by decide),
    (C1_amended DEFAULT_USER_SETTINGS 80 91 121 (by decide)).2.2.1 (by decide) (by decide)⟩

/-! ## Claim C2 — the deal filter is filter-then-normalize -/

/-- The deal predicate as the spec words it: effective duration positive
and price at most the threshold for that duration. -/
def isDealTicket (s : Settings) (t : Ticket) : Bool :=
  decide (0 < ticketDuration t) &&
    decide (t.price.getD 0 ≤ max_price_for_duration (ticketDuration t) s)

/-- C2: `filter_deals` returns exactly the records whose effective
duration is positive and whose price is at most the threshold of the
model, each normalized (absent destination becomes `"???"`, the currency
is the upper-cased settings currency, etc.); being a pure function of its
arguments, it has no side effects on its inputs. -/
theorem C2_filter_deals (tickets : List Ticket) (s : Settings) :
    filter_deals tickets s = (tickets.filter (isDealTicket s)).map (normalizeDeal s) := by
  induction tickets with
  | nil => rfl
  | cons t rest ih =>
    by_cases h₁ : ticketDuration t ≤ 0
    · have hp : isDealTicket s t = false := by
        simp only [isDealTicket, Bool.and_eq_false_iff, decide_eq_false_iff_not, not_lt]
        left
        exact h₁
      simp [filter_deals, h₁, List.filter_cons, hp, ih]
    · by_cases h₂ : t.price.getD 0 ≤ max_price_for_duration (ticketDuration t) s
      · have hp : isDealTicket s t = true := by
          simp only [isDealTicket, Bool.and_eq_true, decide_eq_true_eq]
          exact ⟨by omega, h₂⟩
        simp [filter_deals, h₁, h₂, List.filter_cons, hp, ih]
      · have hp : isDealTicket s t = false := by
          simp only [isDealTicket, Bool.and_eq_false_iff, decide_eq_false_iff_not, not_le]
          right
          omega
        simp [filter_deals, h₁, h₂, List.filter_cons, hp, ih]

/-! ## Claim C4 — ledger eviction -/

/-- `l[-500:]` keeps everything when the list is short enough. -/
theorem truncateLedger_of_le {l : List String} (h : l.length ≤ 500) :
    truncateLedger l = l := by
  unfold truncateLedger
  have h0 : l.length - 500 = 0 := by omega
  rw [h0, List.drop_zero]

/-- C4: appending fingerprints and truncating with `[-500:]` keeps
everything when the combined length is at most 500; beyond 500 it keeps
exactly the last 500 entries in order (`i`-th kept entry = entry
`length - 500 + i` of the combined list), evicting the oldest first. -/
theorem C4_ledger_eviction (ledger newHashes : List String) :
    ((ledger ++ newHashes).length ≤ 500 →
      truncateLedger (ledger ++ newHashes) = ledger ++ newHashes) ∧
    (500 < (ledger ++ newHashes).length →
      (truncateLedger (ledger ++ newHashes)).length = 500 ∧
      ∀ i : ℕ, (truncateLedger (ledger ++ newHashes))[i]? =
        (ledger ++ newHashes)[(ledger ++ newHashes).length - 500 + i]?) := by
  constructor
  · exact fun h => truncateLedger_of_le h
  · intro h
    refine ⟨?_, fun i => ?_⟩
    · unfold truncateLedger
      rw [List.length_drop]
      omega
    · unfold truncateLedger
      rw [List.getElem?_drop]

/-- C4 (witness): a short combined ledger is kept whole; a 501-entry
combined ledger is cut to 500. -/
theorem C4_witness :
    truncateLedger (["a"] ++ ["b"]) = ["a"] ++ ["b"] ∧
    (truncateLedger (List.replicate 300 "x" ++ List.replicate 201 "y")).length = 500 :=
  ⟨(C4_ledger_eviction ["a"] ["b"]).1 (by decide),
    ((C4_ledger_eviction (List.replicate 300 "x") (List.replicate 201 "y")).2
      (by rw [List.length_append, List.length_replicate, List.length_replicate]; decide)).1⟩

/-! ## Claim C9 — bounded single notification message -/

/-- C9: the assembled message never exceeds the 4096-character ceiling:
when the raw concatenation exceeds it, the output is the first 4090
characters plus the `"\n…"` continuation marker (total 4092), and the
deal list is always rendered as this one string, never split. -/
theorem C9_message_bounded (deals : List Deal) (hne : deals ≠ []) :
    (renderMessage deals).length ≤ 4096 ∧
    (4096 < (rawMessage deals).length →
      renderMessage deals = (⟨(rawMessage deals).data.take 4090⟩ : String) ++ "\n…" ∧
        (renderMessage deals).length = 4092) := by
  have hlen : ∀ l : List Char, (⟨l⟩ : String).length = l.length := fun _ => rfl
  constructor
  · unfold renderMessage
    split_ifs with h
    · rw [String.length_append, hlen]
      have h1 : ((rawMessage deals).data.take 4090).length ≤ 4090 := by
        simp [List.length_take]
      have h2 : ("\n…" : String).length = 2 := by decide
      omega
    · omega
  · intro h
    unfold renderMessage
    rw [if_pos (by omega)]
    refine ⟨rfl, ?_⟩
    rw [String.length_append, hlen]
    have hdata : (rawMessage deals).data.length = (rawMessage deals).length := rfl
    have h1 : ((rawMessage deals).data.take 4090).length = 4090 := by
      rw [List.length_take]
      omega
    have h2 : ("\n…" : String).length = 2 := by decide
    omega

/-- A concrete deal record for the witnesses. -/
def sampleDeal : Deal :=
  { origin := "BUD"
    destination := "???"
    departure_at := "2026-01-01T10:00:00"
    price := 18
    currency := "EUR"
    duration_min := 80
    threshold := 20
    airline := "W6"
    flight_number := "2315"
    transfers := 0
    link := "" }

/-- C9 (witness): the bound applied to a one-deal list. -/
theorem C9_witness : (renderMessage [sampleDeal]).length ≤ 4096 :=
  (C9_message_bounded [sampleDeal] (by simp)).1

/-! ## Claim C8 — the fingerprint key determines and is determined by the
four fields -/

/-- Reading a digit string back as a number (big-endian). -/
def evalDigits (l : List Char) : ℕ :=
  l.foldl (fun a c => 10 * a + (c.toNat - 48)) 0

theorem digitChar_toNat_of_lt : ∀ d : ℕ, d < 10 → (Nat.digitChar d).toNat = 48 + d := by
  decide

theorem digitChar_isDigit_of_lt : ∀ d : ℕ, d < 10 → (Nat.digitChar d).isDigit = true := by
  decide

/-- `natDigitsAux` really renders its input in decimal: reading the digit
string back yields the number, whenever the fuel suffices. -/
theorem natDigitsAux_eval : ∀ fuel n : ℕ, n ≤ fuel → evalDigits (natDigitsAux fuel n) = n := by
  intro fuel
  induction fuel with
  | zero =>
    intro n hn
    have h0 : n = 0 := Nat.le_zero.mp hn
    subst h0
    rfl
  | succ f ih =>
    intro n hn
    cases n with
    | zero => rfl
    | succ m =>
      have hdiv : (m + 1) / 10 ≤ f := by
        have h1 : (m + 1) / 10 < m + 1 := Nat.div_lt_self (Nat.succ_pos m) (by omega)
        omega
      have hih := ih ((m + 1) / 10) hdiv
      have hmod : (m + 1) % 10 < 10 := Nat.mod_lt _ (by omega)
      show evalDigits
        (natDigitsAux f ((m + 1) / 10) ++ [Nat.digitChar ((m + 1) % 10)]) = m + 1
      unfold evalDigits at hih ⊢
      rw [List.foldl_append]
      simp only [List.foldl_cons, List.foldl_nil]
      rw [hih, digitChar_toNat_of_lt _ hmod]
      omega

/-- Every character `natDigitsAux` emits is a decimal digit. -/
theorem natDigitsAux_all_digits :
    ∀ fuel n : ℕ, ∀ c ∈ natDigitsAux fuel n, c.isDigit = true := by
  intro fuel
  induction fuel with
  | zero =>
    intro n c hc
    cases n <;> simp [natDigitsAux] at hc
  | succ f ih =>
    intro n c hc
    cases n with
    | zero => simp [natDigitsAux] at hc
    | succ m =>
      have hc' : c ∈ natDigitsAux f ((m + 1) / 10) ++ [Nat.digitChar ((m + 1) % 10)] := hc
      rcases List.mem_append.mp hc' with h | h
      · exact ih _ c h
      · have hcc : c = Nat.digitChar ((m + 1) % 10) := by simpa using h
        subst hcc
        exact digitChar_isDigit_of_lt _ (Nat.mod_lt _ (by omega))

/-- Two strings with equal underlying character lists are equal. -/
theorem string_data_inj {s t : String} (h : s.data = t.data) : s = t :=
  congrArg String.mk h

theorem natDecimalChars_inj {n m : ℕ} (h : natDecimalChars n = natDecimalChars m) :
    n = m := by
  have h1 := natDigitsAux_eval n n le_rfl
  have h2 := natDigitsAux_eval m m le_rfl
  unfold natDecimalChars at h
  rw [h] at h1
  omega

/-- Every character of a rendered natural number is a decimal digit. -/
theorem natDecimal_all_digits (n : ℕ) : ∀ c ∈ (natDecimal n).data, c.isDigit = true := by
  unfold natDecimal
  split_ifs with h
  · intro c hc
    have hcc : c = '0' := by simpa using hc
    subst hcc
    decide
  · intro c hc
    exact natDigitsAux_all_digits n n c hc

/-- Python's decimal rendering of a natural number is injective. -/
theorem natDecimal_inj {n m : ℕ} (h : natDecimal n = natDecimal m) : n = m := by
  unfold natDecimal at h
  by_cases hn : n = 0 <;> by_cases hm : m = 0
  · omega
  · exfalso
    rw [if_pos hn, if_neg hm] at h
    have hd : ("0" : String).data = natDecimalChars m := congrArg String.data h
    have he := natDigitsAux_eval m m le_rfl
    unfold natDecimalChars at hd
    rw [← hd] at he
    have h0 : evalDigits (("0" : String).data) = 0 := by decide
    omega
  · exfalso
    rw [if_neg hn, if_pos hm] at h
    have hd : natDecimalChars n = ("0" : String).data := congrArg String.data h
    have he := natDigitsAux_eval n n le_rfl
    unfold natDecimalChars at hd
    rw [hd] at he
    have h0 : evalDigits (("0" : String).data) = 0 := by decide
    omega
  · rw [if_neg hn, if_neg hm] at h
    exact natDecimalChars_inj (congrArg String.data h)

/-- Python's decimal rendering of an integer is injective. -/
theorem intDecimal_inj {i j : ℤ} (h : intDecimal i = intDecimal j) : i = j := by
  unfold intDecimal at h
  split_ifs at h with hi hj hj
  · have hd := congrArg String.data h
    simp only [String.data_append] at hd
    have hdd : (natDecimal i.natAbs).data = (natDecimal j.natAbs).data := by
      have : ('-' :: (natDecimal i.natAbs).data) = '-' :: (natDecimal j.natAbs).data := by
        simpa using hd
      exact List.tail_eq_of_cons_eq this
    have := natDecimal_inj (string_data_inj hdd)
    omega
  · exfalso
    have hd := congrArg String.data h
    simp only [String.data_append] at hd
    have hmem : '-' ∈ (natDecimal j.toNat).data := by
      rw [← hd]
      simp
    have := natDecimal_all_digits j.toNat '-' hmem
    simp at this
  · exfalso
    have hd := congrArg String.data h
    simp only [String.data_append] at hd
    have hmem : '-' ∈ (natDecimal i.toNat).data := by
      rw [hd]
      simp
    have := natDecimal_all_digits i.toNat '-' hmem
    simp at this
  · have := natDecimal_inj h
    omega

/-- The character list underlying the fingerprint key. -/
theorem deal_hash_data (d : Deal) :
    (deal_hash d).data =
      d.origin.data ++ ['-'] ++ d.destination.data ++ ['-'] ++
        d.departure_at.data ++ ['-'] ++ (intDecimal d.price).data := by
  simp [deal_hash, String.data_append]

theorem hash_cancel_origin {d₁ d₂ : Deal} (h : deal_hash d₁ = deal_hash d₂)
    (h2 : d₁.destination = d₂.destination) (h3 : d₁.departure_at = d₂.departure_at)
    (h4 : d₁.price = d₂.price) : d₁.origin = d₂.origin := by
  have hd := congrArg String.data h
  rw [deal_hash_data, deal_hash_data, h2, h3, h4] at hd
  simp only [List.append_assoc] at hd
  exact string_data_inj (List.append_cancel_right hd)

theorem hash_cancel_dest {d₁ d₂ : Deal} (h : deal_hash d₁ = deal_hash d₂)
    (h1 : d₁.origin = d₂.origin) (h3 : d₁.departure_at = d₂.departure_at)
    (h4 : d₁.price = d₂.price) : d₁.destination = d₂.destination := by
  have hd := congrArg String.data h
  rw [deal_hash_data, deal_hash_data, h1, h3, h4] at hd
  simp only [List.append_assoc] at hd
  have hd₂ := List.append_cancel_left hd
  have hd₃ := List.append_cancel_left hd₂
  exact string_data_inj (List.append_cancel_right hd₃)

theorem hash_cancel_dep {d₁ d₂ : Deal} (h : deal_hash d₁ = deal_hash d₂)
    (h1 : d₁.origin = d₂.origin) (h2 : d₁.destination = d₂.destination)
    (h4 : d₁.price = d₂.price) : d₁.departure_at = d₂.departure_at := by
  have hd := congrArg String.data h
  rw [deal_hash_data, deal_hash_data, h1, h2, h4] at hd
  simp only [List.append_assoc] at hd
  have hd₂ := List.append_cancel_left (List.append_cancel_left hd)
  have hd₃ := List.append_cancel_left (List.append_cancel_left hd₂)
  exact string_data_inj (List.append_cancel_right hd₃)

theorem hash_cancel_price {d₁ d₂ : Deal} (h : deal_hash d₁ = deal_hash d₂)
    (h1 : d₁.origin = d₂.origin) (h2 : d₁.destination = d₂.destination)
    (h3 : d₁.departure_at = d₂.departure_at) : d₁.price = d₂.price := by
  have hd := congrArg String.data h
  rw [deal_hash_data, deal_hash_data, h1, h2, h3] at hd
  simp only [List.append_assoc] at hd
  have hd₂ := List.append_cancel_left (List.append_cancel_left hd)
  have hd₃ := List.append_cancel_left (List.append_cancel_left hd₂)
  have hd₄ := List.append_cancel_left (List.append_cancel_left hd₃)
  exact intDecimal_inj (string_data_inj hd₄)

/-- C8: the fingerprint is a pure function of exactly (origin,
destination, departure timestamp, price): two deals agreeing on those
four fields get the same fingerprint whatever their other fields, and
changing any single one of the four changes the fingerprint. -/
theorem C8_deal_hash (d₁ d₂ : Deal) :
    ((d₁.origin = d₂.origin ∧ d₁.destination = d₂.destination ∧
        d₁.departure_at = d₂.departure_at ∧ d₁.price = d₂.price) →
      deal_hash d₁ = deal_hash d₂) ∧
    (d₁.destination = d₂.destination → d₁.departure_at = d₂.departure_at →
      d₁.price = d₂.price → d₁.origin ≠ d₂.origin → deal_hash d₁ ≠ deal_hash d₂) ∧
    (d₁.origin = d₂.origin → d₁.departure_at = d₂.departure_at →
      d₁.price = d₂.price → d₁.destination ≠ d₂.destination →
      deal_hash d₁ ≠ deal_hash d₂) ∧
    (d₁.origin = d₂.origin → d₁.destination = d₂.destination →
      d₁.price = d₂.price → d₁.departure_at ≠ d₂.departure_at →
      deal_hash d₁ ≠ deal_hash d₂) ∧
    (d₁.origin = d₂.origin → d₁.destination = d₂.destination →
      d₁.departure_at = d₂.departure_at → d₁.price ≠ d₂.price →
      deal_hash d₁ ≠ deal_hash d₂) := by
  refine ⟨?_, ?_, ?_, ?_, ?_⟩
  · rintro ⟨h1, h2, h3, h4⟩
    unfold deal_hash
    rw [h1, h2, h3, h4]
  · intro h2 h3 h4 hne hh
    exact hne (hash_cancel_origin hh h2 h3 h4)
  · intro h1 h3 h4 hne hh
    exact hne (hash_cancel_dest hh h1 h3 h4)
  · intro h1 h2 h4 hne hh
    exact hne (hash_cancel_dep hh h1 h2 h4)
  · intro h1 h2 h3 hne hh
    exact hne (hash_cancel_price hh h1 h2 h3)

/-- Same key fields as `sampleDeal`, different airline. -/
def sampleDealB : Deal := { sampleDeal with airline := "FR" }

/-- Same fields as `sampleDeal` except the price. -/
def sampleDealC : Deal := { sampleDeal with price := 25 }

/-- C8 (witness): agreeing key fields give equal fingerprints; a changed
price changes the fingerprint. -/
theorem C8_witness :
    deal_hash sampleDeal = deal_hash sampleDealB ∧
    deal_hash sampleDeal ≠ deal_hash sampleDealC :=
  ⟨(C8_deal_hash sampleDeal sampleDealB).1 ⟨rfl, rfl, rfl, rfl⟩,
    (C8_deal_hash sampleDeal sampleDealC).2.2.2.2 rfl rfl rfl (by decide)⟩

/-! ## Claims C3 and C10 — dedup after marking sent; frame of a search pass -/

/-- Membership in the accumulated new-deal list of a search pass. -/
theorem mem_allNewDeals {sent : List String} {s : Settings} {days : List (List Ticket)}
    {d : Deal} :
    d ∈ allNewDeals sent s days ↔
      ∃ ts, ts ∈ days ∧ d ∈ filter_deals ts s ∧ deal_hash d ∉ sent := by
  simp [allNewDeals, newDealsForDay, List.mem_flatMap, List.mem_filter, and_assoc]

/-- If every currently-filtered deal's fingerprint is in the ledger, the
pass finds nothing new. -/
theorem allNewDeals_eq_nil {sent : List String} {s : Settings} {days : List (List Ticket)}
    (h : ∀ ts ∈ days, ∀ d ∈ filter_deals ts s, deal_hash d ∈ sent) :
    allNewDeals sent s days = [] := by
  rw [List.eq_nil_iff_forall_not_mem]
  intro d hd
  rw [mem_allNewDeals] at hd
  obtain ⟨ts, hts, hdf, hnot⟩ := hd
  exact hnot (h ts hts d hdf)

theorem user_settings_of_find {st : AppState} {chat_id : String} {u : UserRec}
    (hu : mapFind? st.users chat_id = some u) :
    user_settings st chat_id = mergeSettings u.settings := by
  unfold user_settings
  rw [hu]
  rfl

/-- Closed form of a search pass for a registered user. -/
theorem search_for_user_eq {chat_id : String} {st : AppState} {days : List (List Ticket)}
    {u : UserRec} (hu : mapFind? st.users chat_id = some u) :
    search_for_user chat_id st days =
      if (allNewDeals u.sent_deals (user_settings st chat_id) days).isEmpty then st
      else withLedger st chat_id u
        (truncateLedger (u.sent_deals ++
          (sortByPrice (allNewDeals u.sent_deals (user_settings st chat_id) days)).map
            deal_hash)) := by
  unfold search_for_user
  rw [hu]

/-- C10: a per-user search pass mutates at most that user's sent-deals
ledger: the pending map, the `last_update_id` cursor, every other user's
record, and the user's own name and settings are unchanged; and when the
pass finds zero new deals the whole application state is unchanged. -/
theorem C10_search_frame (chat_id : String) (st : AppState) (days : List (List Ticket))
    (u : UserRec) (hu : mapFind? st.users chat_id = some u) :
    (search_for_user chat_id st days).pending = st.pending ∧
    (search_for_user chat_id st days).last_update_id = st.last_update_id ∧
    (∀ id, id ≠ chat_id →
      mapFind? (search_for_user chat_id st days).users id = mapFind? st.users id) ∧
    (∃ u', mapFind? (search_for_user chat_id st days).users chat_id = some u' ∧
      u'.name = u.name ∧ u'.settings = u.settings) ∧
    (allNewDeals u.sent_deals (user_settings st chat_id) days = [] →
      search_for_user chat_id st days = st) := by
  rw [search_for_user_eq hu]
  by_cases hE : (allNewDeals u.sent_deals (user_settings st chat_id) days).isEmpty
  · rw [if_pos hE]
    exact ⟨rfl, rfl, fun _ _ => rfl, ⟨u, hu, rfl, rfl⟩, fun _ => rfl⟩
  · rw [if_neg hE]
    refine ⟨rfl, rfl, fun id hid => mapFind?_insert_ne _ _ hid,
      ⟨_, mapFind?_insert_self _ _ _, rfl, rfl⟩, fun h0 => ?_⟩
    exfalso
    rw [h0] at hE
    exact hE rfl

/-- A registered user with empty overrides and empty ledger. -/
def user0 : UserRec := { name := "Admin", settings := {}, sent_deals := [] }

/-- A one-user state for the witnesses. -/
def st0 : AppState := { users := [("1", user0)], pending := [], last_update_id := 0 }

/-- C10 (witness): the frame theorem applied to a concrete one-user state
with no fetched days. -/
theorem C10_witness :
    (search_for_user "1" st0 []).pending = st0.pending ∧
    search_for_user "1" st0 [] = st0 :=
  ⟨(C10_search_frame "1" st0 [] user0 (by decide)).1,
    (C10_search_frame "1" st0 [] user0 (by decide)).2.2.2.2 rfl⟩

/-- C3: once a search pass has appended the fingerprints of the deals it
sent to the user's ledger (marking sent), re-running the identical
filter-dedup pipeline on the same raw ticket data yields zero new deals —
provided no eviction removed fingerprints (combined ledger within the
500 cap) — and a second `search_for_user` on the same data is the
identity on the post-state. -/
theorem C3_dedup (chat_id : String) (st : AppState) (days : List (List Ticket))
    (u : UserRec) (hu : mapFind? st.users chat_id = some u)
    (hnoevict :
      (u.sent_deals ++
        (sortByPrice (allNewDeals u.sent_deals (user_settings st chat_id) days)).map
          deal_hash).length ≤ 500) :
    allNewDeals
        (u.sent_deals ++
          (sortByPrice (allNewDeals u.sent_deals (user_settings st chat_id) days)).map
            deal_hash)
        (user_settings st chat_id) days = [] ∧
    search_for_user chat_id (search_for_user chat_id st days) days =
      search_for_user chat_id st days := by
  have hmark : ∀ ts ∈ days, ∀ d ∈ filter_deals ts (user_settings st chat_id),
      deal_hash d ∈ u.sent_deals ++
        (sortByPrice (allNewDeals u.sent_deals (user_settings st chat_id) days)).map
          deal_hash := by
    intro ts hts d hdf
    by_cases hsent : deal_hash d ∈ u.sent_deals
    · exact List.mem_append_left _ hsent
    · have hdn : d ∈ allNewDeals u.sent_deals (user_settings st chat_id) days := by
        rw [mem_allNewDeals]
        exact ⟨ts, hts, hdf, hsent⟩
      have hds : d ∈ sortByPrice (allNewDeals u.sent_deals (user_settings st chat_id) days) := by
        unfold sortByPrice
        exact (List.mem_insertionSort _).mpr hdn
      exact List.mem_append_right _ (List.mem_map_of_mem deal_hash hds)
  have hnil := allNewDeals_eq_nil hmark
  refine ⟨hnil, ?_⟩
  by_cases hE : (allNewDeals u.sent_deals (user_settings st chat_id) days).isEmpty
  · have h1 : search_for_user chat_id st days = st := by
      rw [search_for_user_eq hu, if_pos hE]
    rw [h1]
    exact h1
  · rw [search_for_user_eq hu, if_neg hE, truncateLedger_of_le hnoevict]
    set L := u.sent_deals ++
      (sortByPrice (allNewDeals u.sent_deals (user_settings st chat_id) days)).map
        deal_hash with hLdef
    have hu' : mapFind? (withLedger st chat_id u L).users chat_id =
        some { u with sent_deals := L } := by
      unfold withLedger
      exact mapFind?_insert_self st.users chat_id _
    rw [search_for_user_eq hu']
    have hset : user_settings (withLedger st chat_id u L) chat_id =
        user_settings st chat_id := by
      rw [user_settings_of_find hu', user_settings_of_find hu]
    rw [hset]
    have hnil' : allNewDeals ({ u with sent_deals := L } : UserRec).sent_deals
        (user_settings st chat_id) days = [] := hnil
    rw [hnil']
    rfl

/-- A raw ticket passing the default filter (price 18, duration 80). -/
def sampleTicket : Ticket :=
  { origin := some "BUD"
    destination := some "BCN"
    departure_at := some "2026-01-01T10:00:00"
    price := some 18
    duration_to := some 80
    transfers := some 0 }

/-- C3 (witness): the dedup theorem applied to a concrete one-user state
and a one-day, one-ticket fetch that produces one deal. -/
theorem C3_witness :
    search_for_user "1" (search_for_user "1" st0 [[sampleTicket]]) [[sampleTicket]] =
      search_for_user "1" st0 [[sampleTicket]] :=
  (C3_dedup "1" st0 [[sampleTicket]] user0 (by decide) (by decide)).2

/-! ## Claim C6 — the approve transition -/

/-- The user record created on approval: empty settings, empty ledger
(src/main.py lines 364-368). -/
def approvedRec (nm : String) : UserRec :=
  { name := nm, settings := {}, sent_deals := [] }

/-- Helper for stating settings mutations: replace one user's overrides. -/
def withSettings (st : AppState) (chat_id : String) (u : UserRec) (ov : SettingsOv) :
    AppState :=
  let u' : UserRec := { u with settings := ov }
  { st with users := mapInsert st.users chat_id u' }

/-- C6: with the admin approved (as `main()` guarantees), an admin-issued
`/approve id`: (a) for a pending id, moves exactly that id from pending
to users with empty settings and empty ledger and notifies both parties;
(b) for a non-pending id, produces only the not-found reply and leaves
the state unchanged; and (c) a non-admin sender issuing `/approve`
never mutates the state (the command handler answers with the
unknown-command or the not-authorized reply). -/
theorem C6_approve (admin_id : String) (st : AppState) (arg name uname : String)
    (ua : UserRec) (hadmin : mapFind? st.users admin_id = some ua) (harg : arg ≠ "") :
    (∀ info, mapFind? st.pending arg = some info →
      dispatchCommand admin_id st admin_id "/approve" arg name uname =
        ({ st with pending := mapErase st.pending arg,
                   users := mapInsert st.users arg (approvedRec info.name) },
          [(admin_id, Out.approvedAdmin info.name), (arg, Out.approvedUser)])) ∧
    (mapFind? st.pending arg = none →
      dispatchCommand admin_id st admin_id "/approve" arg name uname =
        (st, [(admin_id, Out.notFound arg)])) ∧
    (∀ sender, sender ≠ admin_id →
      (dispatchCommand admin_id st sender "/approve" arg name uname).1 = st) := by
  refine ⟨?_, ?_, ?_⟩
  · intro info hinfo
    simp [dispatchCommand, COMMAND_MAP, hadmin, harg, hinfo, approvedRec]
  · intro hnone
    simp [dispatchCommand, COMMAND_MAP, hadmin, harg, hnone]
  · intro sender hsender
    have hb : (sender == admin_id) = false := by simp [hsender]
    cases hus : mapFind? st.users sender with
    | none => simp [dispatchCommand, hus]
    | some u => simp [dispatchCommand, COMMAND_MAP, hus, hb, harg]

/-- A pending state for the C6 witness: user "1" approved (admin),
id "2" pending. -/
def st1 : AppState :=
  { users := [("1", user0)]
    pending := [("2", { name := "Bob", username := "bob" })]
    last_update_id := 0 }

/-- C6 (witness): approving the pending id "2" moves it to users; a
non-admin sender mutates nothing. -/
theorem C6_witness :
    dispatchCommand "1" st1 "1" "/approve" "2" "A" "a" =
      ({ st1 with pending := mapErase st1.pending "2",
                  users := mapInsert st1.users "2" (approvedRec "Bob") },
        [("1", Out.approvedAdmin "Bob"), ("2", Out.approvedUser)]) ∧
    (dispatchCommand "1" st1 "3" "/approve" "2" "A" "a").1 = st1 :=
  ⟨(C6_approve "1" st1 "2" "A" "a" user0 (by decide) (by decide)).1
      { name := "Bob", username := "bob" } (by decide),
    (C6_approve "1" st1 "2" "A" "a" user0 (by decide) (by decide)).2.2 "3" (by decide)⟩

/-! ## Claim C7 — settings commands: malformed vs. well-formed argument -/

/-- C7: for an approved user issuing an `int`-typed settings command with
a non-empty argument: a malformed argument gets the value-error reply and
leaves the whole state unchanged; a well-formed argument sets exactly the
one named settings field (the named key reads back as the new value,
every other key and the non-`int` fields are untouched). -/
theorem C7_settings_commands (admin_id : String) (st : AppState) (chat_id : String)
    (cmd arg name uname key : String) (u : UserRec)
    (hu : mapFind? st.users chat_id = some u)
    (hcmd : COMMAND_MAP cmd = some (key, SettingTy.int))
    (harg : arg ≠ "") :
    (pyInt arg = none →
      dispatchCommand admin_id st chat_id cmd arg name uname =
        (st, [(chat_id, Out.badValue arg)])) ∧
    (∀ v : ℤ, pyInt arg = some v →
      dispatchCommand admin_id st chat_id cmd arg name uname =
        (withSettings st chat_id u (setSettingInt u.settings key v),
          [(chat_id, Out.setOkInt key v)])) ∧
    (∀ v : ℤ,
      getSettingInt (setSettingInt u.settings key v) key = some v ∧
      (∀ key₂, key₂ ≠ key →
        getSettingInt (setSettingInt u.settings key v) key₂ =
          getSettingInt u.settings key₂) ∧
      (setSettingInt u.settings key v).origin = u.settings.origin ∧
      (setSettingInt u.settings key v).currency = u.settings.currency ∧
      (setSettingInt u.settings key v).market = u.settings.market ∧
      (setSettingInt u.settings key v).limit = u.settings.limit ∧
      (setSettingInt u.settings key v).direct_only = u.settings.direct_only) := by
  by_cases h1 : cmd = "/origin"
  · subst h1
    simp [COMMAND_MAP] at hcmd
  · by_cases h2 : cmd = "/days"
    · subst h2
      simp [COMMAND_MAP] at hcmd
      subst hcmd
      refine ⟨fun hpy => by simp [dispatchCommand, COMMAND_MAP, hu, harg, hpy],
        fun v hpy => by simp [dispatchCommand, COMMAND_MAP, hu, harg, hpy, withSettings],
        fun v => ⟨by simp [getSettingInt, setSettingInt],
          fun key₂ hk2 => by simp [getSettingInt, setSettingInt, hk2],
          by simp [setSettingInt], by simp [setSettingInt], by simp [setSettingInt],
          by simp [setSettingInt], by simp [setSettingInt]⟩⟩
    · by_cases h3 : cmd = "/price"
      · subst h3
        simp [COMMAND_MAP] at hcmd
        subst hcmd
        refine ⟨fun hpy => by simp [dispatchCommand, COMMAND_MAP, hu, harg, hpy],
          fun v hpy => by simp [dispatchCommand, COMMAND_MAP, hu, harg, hpy, withSettings],
          fun v => ⟨by simp [getSettingInt, setSettingInt],
            fun key₂ hk2 => by simp [getSettingInt, setSettingInt, hk2],
            by simp [setSettingInt], by simp [setSettingInt], by simp [setSettingInt],
            by simp [setSettingInt], by simp [setSettingInt]⟩⟩
      · by_cases h4 : cmd = "/duration"
        · subst h4
          simp [COMMAND_MAP] at hcmd
          subst hcmd
          refine ⟨fun hpy => by simp [dispatchCommand, COMMAND_MAP, hu, harg, hpy],
            fun v hpy => by
              simp [dispatchCommand, COMMAND_MAP, hu, harg, hpy, withSettings],
            fun v => ⟨by simp [getSettingInt, setSettingInt],
              fun key₂ hk2 => by simp [getSettingInt, setSettingInt, hk2],
              by simp [setSettingInt], by simp [setSettingInt], by simp [setSettingInt],
              by simp [setSettingInt], by simp [setSettingInt]⟩⟩
        · by_cases h5 : cmd = "/increment"
          · subst h5
            simp [COMMAND_MAP] at hcmd
            subst hcmd
            refine ⟨fun hpy => by simp [dispatchCommand, COMMAND_MAP, hu, harg, hpy],
              fun v hpy => by
                simp [dispatchCommand, COMMAND_MAP, hu, harg, hpy, withSettings],
              fun v => ⟨by simp [getSettingInt, setSettingInt],
                fun key₂ hk2 => by simp [getSettingInt, setSettingInt, hk2],
                by simp [setSettingInt], by simp [setSettingInt],
                by simp [setSettingInt], by simp [setSettingInt],
                by simp [setSettingInt]⟩⟩
          · simp [COMMAND_MAP, h1, h2, h3, h4, h5] at hcmd

/-- C7 (witness): a malformed `/days` argument changes nothing and gets
the value-error reply; a well-formed one sets exactly `days_ahead`. -/
theorem C7_witness :
    dispatchCommand "" st0 "1" "/days" "abc" "A" "a" =
      (st0, [("1", Out.badValue "abc")]) ∧
    dispatchCommand "" st0 "1" "/days" "5" "A" "a" =
      (withSettings st0 "1" user0 (setSettingInt user0.settings "days_ahead" 5),
        [("1", Out.setOkInt "days_ahead" 5)]) :=
  ⟨(C7_settings_commands "" st0 "1" "/days" "abc" "A" "a" "days_ahead" user0 (by decide)
      (by decide) (by decide)).1 (by decide),
    (C7_settings_commands "" st0 "1" "/days" "5" "A" "a" "days_ahead" user0 (by decide)
      (by decide) (by decide)).2.1 5 (by decide)⟩

/-! ## Claim C5 — a chat id is never both pending and approved -/

/-- The claimed invariant: no chat id is a key of both maps. -/
abbrev UsersPendingDisjoint (st : AppState) : Prop :=
  ∀ id, ¬((mapFind? st.users id).isSome = true ∧ (mapFind? st.pending id).isSome = true)

/-- Auxiliary invariant: the configured admin, when non-empty, is
registered (the registry never shrinks, so this is stable). -/
abbrev AdminOk (admin_id : String) (st : AppState) : Prop :=
  admin_id = "" ∨ (mapFind? st.users admin_id).isSome = true

theorem disjoint_insert_user {st : AppState} {chat : String} {u' : UserRec}
    (hd : UsersPendingDisjoint st) (hmem : (mapFind? st.users chat).isSome = true) :
    UsersPendingDisjoint { st with users := mapInsert st.users chat u' } := by
  intro id
  rintro ⟨hu', hp'⟩
  by_cases hid : id = chat
  · subst hid
    exact hd id ⟨hmem, hp'⟩
  · rw [mapFind?_insert_ne _ _ hid] at hu'
    exact hd id ⟨hu', hp'⟩

theorem disjoint_insert_pending {st : AppState} {chat : String} {p : PendingRec}
    (hd : UsersPendingDisjoint st) (hmem : (mapFind? st.users chat).isSome = false) :
    UsersPendingDisjoint { st with pending := mapInsert st.pending chat p } := by
  intro id
  rintro ⟨hu', hp'⟩
  by_cases hid : id = chat
  · subst hid
    rw [hmem] at hu'
    cases hu'
  · rw [mapFind?_insert_ne _ _ hid] at hp'
    exact hd id ⟨hu', hp'⟩

theorem disjoint_approve_move {st : AppState} {arg : String} {rec : UserRec}
    (hd : UsersPendingDisjoint st) :
    UsersPendingDisjoint
      { st with pending := mapErase st.pending arg,
                users := mapInsert st.users arg rec } := by
  intro id
  rintro ⟨hu', hp'⟩
  by_cases hid : id = arg
  · subst hid
    rw [mapFind?_erase_self] at hp'
    simp at hp'
  · rw [mapFind?_insert_ne _ _ hid] at hu'
    rw [mapFind?_erase_ne _ hid] at hp'
    exact hd id ⟨hu', hp'⟩

theorem disjoint_erase_pending {st : AppState} {arg : String}
    (hd : UsersPendingDisjoint st) :
    UsersPendingDisjoint { st with pending := mapErase st.pending arg } := by
  intro id
  rintro ⟨hu', hp'⟩
  by_cases hid : id = arg
  · subst hid
    rw [mapFind?_erase_self] at hp'
    simp at hp'
  · rw [mapFind?_erase_ne _ hid] at hp'
    exact hd id ⟨hu', hp'⟩

set_option maxHeartbeats 1600000 in
/-- Every command leaves the two maps disjoint and keeps the admin
registered. -/
theorem dispatch_preserves (admin_id : String) (st : AppState)
    (chat_id cmd arg name uname : String)
    (hd : UsersPendingDisjoint st) (ha : AdminOk admin_id st) :
    UsersPendingDisjoint (dispatchCommand admin_id st chat_id cmd arg name uname).1 ∧
    AdminOk admin_id (dispatchCommand admin_id st chat_id cmd arg name uname).1 := by
  have hins : ∀ u' : UserRec, (mapFind? st.users chat_id).isSome = true →
      UsersPendingDisjoint { st with users := mapInsert st.users chat_id u' } ∧
      AdminOk admin_id { st with users := mapInsert st.users chat_id u' } :=
    fun u' hm =>
      ⟨disjoint_insert_user hd hm,
        Or.imp (fun h => h) (fun h => isSome_mapFind?_insert _ _ _ _ h) ha⟩
  simp only [dispatchCommand]
  split
  · -- cmd = "/start"
    split
    · exact ⟨hd, ha⟩
    · next hap =>
      split
      · exact ⟨hd, ha⟩
      · exact ⟨disjoint_insert_pending hd (by simpa using hap), ha⟩
  · -- other commands
    split
    · exact ⟨hd, ha⟩
    · next u hus =>
      have hsome : (mapFind? st.users chat_id).isSome = true := by simp [hus]
      split
      · exact ⟨hd, ha⟩
      · split
        · exact ⟨hd, ha⟩
        · split
          · exact hins _ hsome
          · split
            · exact hins _ hsome
            · split
              · -- settings command
                split
                · exact ⟨hd, ha⟩
                · split
                  · exact hins _ hsome
                  · split
                    · exact hins _ hsome
                    · exact ⟨hd, ha⟩
              · -- admin commands / unknown
                split
                · split
                  · split
                    · exact ⟨hd, ha⟩
                    · split
                      · exact ⟨disjoint_approve_move hd,
                          Or.imp (fun h => h)
                            (fun h => isSome_mapFind?_insert _ _ _ _ h) ha⟩
                      · exact ⟨hd, ha⟩
                  · exact ⟨hd, ha⟩
                · split
                  · split
                    · split
                      · exact ⟨hd, ha⟩
                      · split
                        · exact ⟨disjoint_erase_pending hd, ha⟩
                        · exact ⟨hd, ha⟩
                    · exact ⟨hd, ha⟩
                  · split
                    · split
                      · exact ⟨hd, ha⟩
                      · exact ⟨hd, ha⟩
                    · exact ⟨hd, ha⟩

theorem handleMessage_preserves (admin_id : String) (st : AppState) (u : Update)
    (hd : UsersPendingDisjoint st) (ha : AdminOk admin_id st) :
    UsersPendingDisjoint (handleMessage admin_id st u).1 ∧
    AdminOk admin_id (handleMessage admin_id st u).1 := by
  simp only [handleMessage]
  split
  · exact ⟨hd, ha⟩
  · split
    · exact dispatch_preserves admin_id st _ _ _ _ _ hd ha
    · exact ⟨hd, ha⟩

theorem applyUpdate_preserves (admin_id : String) (st : AppState) (u : Update)
    (hd : UsersPendingDisjoint st) (ha : AdminOk admin_id st) :
    UsersPendingDisjoint (applyUpdate admin_id st u).1 ∧
    AdminOk admin_id (applyUpdate admin_id st u).1 :=
  handleMessage_preserves admin_id { st with last_update_id := u.update_id } u hd ha

theorem process_preserves (admin_id : String) (updates : List Update) :
    ∀ st : AppState, UsersPendingDisjoint st → AdminOk admin_id st →
      UsersPendingDisjoint (process_telegram_commands admin_id st updates) ∧
      AdminOk admin_id (process_telegram_commands admin_id st updates) := by
  induction updates with
  | nil => exact fun st hd ha => ⟨hd, ha⟩
  | cons u us ih =>
    intro st hd ha
    have h1 := applyUpdate_preserves admin_id st u hd ha
    exact ih (applyUpdate admin_id st u).1 h1.1 h1.2

/-- The startup admin insertion keeps the maps disjoint and establishes
`AdminOk`, given the run-to-run invariant. -/
theorem ensureAdmin_inv (admin_id : String) (st : AppState)
    (hd : UsersPendingDisjoint st)
    (hcase : st = empty_state ∨ admin_id = "" ∨
      (mapFind? st.users admin_id).isSome = true) :
    UsersPendingDisjoint (ensureAdmin admin_id st) ∧
    AdminOk admin_id (ensureAdmin admin_id st) := by
  unfold ensureAdmin
  split
  · next hcond =>
    rcases hcase with hemp | hadm | hsome
    · subst hemp
      constructor
      · intro id
        rintro ⟨-, hp'⟩
        cases hp'
      · exact Or.inr (by simp)
    · exact absurd hadm hcond.1
    · rw [Option.isNone_iff_eq_none] at hcond
      rw [hcond.2] at hsome
      cases hsome
  · next hcond =>
    rw [not_and_or] at hcond
    refine ⟨hd, ?_⟩
    rcases hcond with h | h
    · exact Or.inl (not_not.mp h)
    · right
      cases hfind : mapFind? st.users admin_id with
      | none => exact absurd (by simp [hfind]) h
      | some v => simp [hfind]

/-- The run-to-run strengthened invariant of the reachable states. -/
theorem reachable_inv (admin_id : String) (st : AppState) (h : Reachable admin_id st) :
    UsersPendingDisjoint st ∧
      (st = empty_state ∨ admin_id = "" ∨
        (mapFind? st.users admin_id).isSome = true) := by
  induction h with
  | empty =>
    refine ⟨fun id => ?_, Or.inl rfl⟩
    rintro ⟨hu', -⟩
    cases hu'
  | run updates h ih =>
    obtain ⟨hd, hcase⟩ := ih
    have h1 := ensureAdmin_inv admin_id _ hd hcase
    have h2 := process_preserves admin_id updates _ h1.1 h1.2
    refine ⟨h2.1, ?_⟩
    rcases h2.2 with h | h
    · exact Or.inr (Or.inl h)
    · exact Or.inr (Or.inr h)

/-- C5: in every application state reachable from the empty state by the
startup admin-insertion step followed by inbound-command processing (as
`main()` orders each run), no chat id is simultaneously a key of the
pending map and of the users map. -/
theorem C5_pending_users_disjoint (admin_id : String) (st : AppState)
    (h : Reachable admin_id st) :
    ∀ id, ¬((mapFind? st.users id).isSome = true ∧
      (mapFind? st.pending id).isSome = true) :=
  fun id => (reachable_inv admin_id st h).1 id

/-- C5 (witness): the invariant at a concrete reachable state (one run
with no inbound updates, admin `"1"`). -/
theorem C5_witness :
    ¬((mapFind? (runOnce "1" empty_state []).users "2").isSome = true ∧
      (mapFind? (runOnce "1" empty_state []).pending "2").isSome = true) :=
  C5_pending_users_disjoint "1" (runOnce "1" empty_state [])
    (Reachable.run [] Reachable.empty) "2"

end FlightDeals
